import Mathlib

/-!
Verification of the markdown meeting-notes parser (`parse_markdown` and
`_mention_spans` in `md_to_gdoc.py`).

Strings are modelled as `List Char` with an ASCII character model:
Python's whitespace class is modelled by `isPySpace` and the regex word
class by `isWordChar` (letters, digits, underscore).  All definitions are
executable and structurally recursive so that concrete runs evaluate by
`decide` / `rfl`.
-/

/-- ASCII model of the Python whitespace class used by strip / rstrip and
the regex class written backslash-s. -/
def isPySpace (c : Char) : Bool :=
  c == ' ' || c == '\t' || c == '\n' || c == '\r' || c == '\x0b' || c == '\x0c'

/-- ASCII model of the regex word class (letters, digits, underscore). -/
def isWordChar (c : Char) : Bool :=
  c.isAlphanum || c == '_'

/-- Python str.rstrip: drop trailing whitespace. -/
def rstrip (l : List Char) : List Char :=
  (l.reverse.dropWhile isPySpace).reverse

/-- Python str.lstrip: drop leading whitespace. -/
def lstrip (l : List Char) : List Char :=
  l.dropWhile isPySpace

/-- Python str.strip. -/
def strip (l : List Char) : List Char :=
  rstrip (lstrip l)

/-- Boolean prefix test, models Python str.startswith. -/
def startsWith : List Char → List Char → Bool
  | [], _ => true
  | _ :: _, [] => false
  | p :: ps, c :: cs => if p = c then startsWith ps cs else false

/-- Python str.partition restricted to what the code consumes: the part
before the first occurrence of the separator and the part after it
(both empty-after when the separator does not occur, as in Python). -/
def partitionSep (sep : List Char) : List Char → List Char × List Char
  | [] => ([], [])
  | c :: rest =>
    if startsWith sep (c :: rest) then ([], (c :: rest).drop sep.length)
    else
      let p := partitionSep sep rest
      (c :: p.1, p.2)

/-- Normalization of line endings: replace CRLF by LF, then lone CR by LF,
exactly the two sequential `replace` calls in `parse_markdown`. -/
def normalizeNewlines : List Char → List Char
  | [] => []
  | '\r' :: '\n' :: rest => '\n' :: normalizeNewlines rest
  | '\r' :: rest => '\n' :: normalizeNewlines rest
  | c :: rest => c :: normalizeNewlines rest

/-- Python str.split on a single LF: n separators yield n+1 pieces, the
empty string yields one empty piece. -/
def splitLines : List Char → List (List Char)
  | [] => [[]]
  | '\n' :: rest => [] :: splitLines rest
  | c :: rest =>
    match splitLines rest with
    | [] => [[c]]
    | l :: ls => (c :: l) :: ls

/-- Scanner state for the mention regex (at-sign followed by one or more
word characters): outside any candidate, just after an at-sign, or inside
the word run that started at position s. -/
inductive MentionSt where
  | idle : MentionSt
  | afterAt (s : Nat) : MentionSt
  | word (s : Nat) : MentionSt

/-- Left-to-right maximal-munch scan for the mention regex; the state
machine of MENTION_RE.finditer.  Emits half-open spans of each match of
an at-sign followed by one or more word characters. -/
def mentionGo : List Char → Nat → MentionSt → List (Nat × Nat)
  | [], i, MentionSt.word s => [(s, i)]
  | [], _, _ => []
  | c :: rest, i, MentionSt.idle =>
    if c = '@' then mentionGo rest (i + 1) (MentionSt.afterAt i)
    else mentionGo rest (i + 1) MentionSt.idle
  | c :: rest, i, MentionSt.afterAt s =>
    if isWordChar c then mentionGo rest (i + 1) (MentionSt.word s)
    else if c = '@' then mentionGo rest (i + 1) (MentionSt.afterAt i)
    else mentionGo rest (i + 1) MentionSt.idle
  | c :: rest, i, MentionSt.word s =>
    if isWordChar c then mentionGo rest (i + 1) (MentionSt.word s)
    else if c = '@' then (s, i) :: mentionGo rest (i + 1) (MentionSt.afterAt i)
    else (s, i) :: mentionGo rest (i + 1) MentionSt.idle

/-- The `_mention_spans` helper: spans of MENTION_RE matches in s. -/
def _mention_spans (s : List Char) : List (Nat × Nat) :=
  mentionGo s 0 MentionSt.idle

/-- The eight paragraph kinds of the data model. -/
inductive Kind where
  | text | h1 | h2 | h3 | bullet | checkbox | footer | hr
deriving DecidableEq, Repr

/-- The `Paragraph` dataclass. -/
structure Paragraph where
  kind : Kind
  text : List Char
  level : Nat := 0
  mentions : List (Nat × Nat) := []
deriving DecidableEq, Repr

/-- The checkbox regex: optional leading whitespace (its width, halved,
is the level), a dash, optional whitespace, the literal bracket-space-
bracket marker, at least one whitespace character, then the content
(returned stripped, as the code strips group 2). -/
def matchCheckbox (line : List Char) : Option (Nat × List Char) :=
  match line.dropWhile isPySpace with
  | '-' :: r2 =>
    match r2.dropWhile isPySpace with
    | '[' :: ' ' :: ']' :: r4 =>
      match r4 with
      | c :: _ =>
        if isPySpace c then some ((line.takeWhile isPySpace).length / 2, strip r4)
        else none
      | [] => none
    | _ => none
  | _ => none

/-- The bullet regex: optional leading whitespace, a dash or asterisk,
at least one whitespace character, then the content (stripped). -/
def matchBullet (line : List Char) : Option (Nat × List Char) :=
  match line.dropWhile isPySpace with
  | c :: r2 =>
    if c = '-' ∨ c = '*' then
      match r2 with
      | d :: _ =>
        if isPySpace d then some ((line.takeWhile isPySpace).length / 2, strip r2)
        else none
      | [] => none
    else none
  | [] => none

/-- One iteration of the classifier loop of `parse_markdown`: the records
emitted for one raw line together with the updated footer flag.  The raw
line is first right-stripped; the branch order is blank, hr, h1 (with
subtitle split on the first space-dash-space), h2, h3, checkbox, bullet,
plain text. -/
def classifyLine (in_footer : Bool) (raw : List Char) : List Paragraph × Bool :=
  if (strip (rstrip raw)).isEmpty then
    ([{ kind := Kind.text, text := [] }], in_footer)
  else if strip (rstrip raw) = ("---").data then
    ([{ kind := Kind.hr, text := [] }], true)
  else if startsWith ("# ").data (rstrip raw) then
    (if (strip (partitionSep (" - ").data (strip ((rstrip raw).drop 2))).2).isEmpty then
      [{ kind := Kind.h1,
         text := strip (partitionSep (" - ").data (strip ((rstrip raw).drop 2))).1 }]
    else
      [{ kind := Kind.h1,
         text := strip (partitionSep (" - ").data (strip ((rstrip raw).drop 2))).1 },
       { kind := Kind.text,
         text := strip (partitionSep (" - ").data (strip ((rstrip raw).drop 2))).2 }],
     in_footer)
  else if startsWith ("## ").data (rstrip raw) then
    ([{ kind := Kind.h2, text := strip ((rstrip raw).drop 3) }], in_footer)
  else if startsWith ("### ").data (rstrip raw) then
    ([{ kind := Kind.h3, text := strip ((rstrip raw).drop 4) }], in_footer)
  else
    match matchCheckbox (rstrip raw) with
    | some lt =>
      ([{ kind := Kind.checkbox, text := lt.2, level := lt.1,
          mentions := _mention_spans lt.2 }], in_footer)
    | none =>
      match matchBullet (rstrip raw) with
      | some lt =>
        ([{ kind := (if in_footer then Kind.footer else Kind.bullet), text := lt.2,
            level := lt.1, mentions := _mention_spans lt.2 }], in_footer)
      | none =>
        ([{ kind := (if in_footer then Kind.footer else Kind.text),
            text := strip (rstrip raw),
            mentions := _mention_spans (strip (rstrip raw)) }], in_footer)

/-- The classifier loop folded over the line list, threading the footer
flag. -/
def parseLines : Bool → List (List Char) → List Paragraph
  | _, [] => []
  | fl, l :: ls => (classifyLine fl l).1 ++ parseLines (classifyLine fl l).2 ls

/-- `parse_markdown`: normalize line endings, split on LF, classify. -/
def parse_markdown (md : List Char) : List Paragraph :=
  parseLines false (splitLines (normalizeNewlines md))

/-- Per-line view of the same loop: the list of record blocks, one block
per input line. -/
def lineRecords : Bool → List (List Char) → List (List Paragraph)
  | _, [] => []
  | fl, l :: ls => (classifyLine fl l).1 :: lineRecords (classifyLine fl l).2 ls

/-- The footer flag after the loop has consumed the given lines. -/
def flagAfter : Bool → List (List Char) → Bool
  | fl, [] => fl
  | fl, l :: ls => flagAfter (classifyLine fl l).2 ls

/-- The records the loop emits for line j of the given line list (footer
flag threaded from an initially-false flag through the first j lines). -/
def recordsAt (lines : List (List Char)) (j : Nat) : List Paragraph :=
  (classifyLine (flagAfter false (lines.take j)) (lines.getD j [])).1

/-- The h1-with-subtitle test: the (right-stripped) line starts with
hash-space and the part after the first space-dash-space of the stripped
title is non-empty once stripped.  Exactly the condition under which the
h1 branch emits a second record. -/
def extraP (raw : List Char) : Bool :=
  startsWith ("# ").data (rstrip raw) &&
    !(strip (partitionSep (" - ").data (strip ((rstrip raw).drop 2))).2).isEmpty

/-! ## List and strip lemmas -/

theorem dropWhile_cons_neg {p : Char → Bool} {a : Char} (l : List Char) (h : p a = false) :
    List.dropWhile p (a :: l) = a :: l := by
  simp [List.dropWhile, h]

theorem dropWhile_append_all {p : Char → Bool} {ws : List Char}
    (hws : ∀ c ∈ ws, p c = true) {d : Char} (hd : p d = false) (t : List Char) :
    List.dropWhile p (ws ++ d :: t) = d :: t := by
  induction ws with
  | nil => simpa [List.dropWhile] using dropWhile_cons_neg t hd
  | cons c cs ih =>
    have hc : p c = true := hws c (by simp)
    simp only [List.cons_append, List.dropWhile, hc]
    exact ih (fun x hx => hws x (by simp [hx]))

theorem dropWhile_append_cons {p : Char → Bool} (xs : List Char) {c : Char}
    (ys : List Char) (hc : p c = false) :
    List.dropWhile p (xs ++ c :: ys) = List.dropWhile p xs ++ c :: ys := by
  induction xs with
  | nil => simp [dropWhile_cons_neg ys hc]
  | cons a as ih =>
    by_cases ha : p a = true
    · simp only [List.cons_append, List.dropWhile, ha]
      exact ih
    · have ha' : p a = false := by simpa using ha
      simp [List.dropWhile, ha']

theorem dropWhile_idem {p : Char → Bool} (l : List Char) :
    List.dropWhile p (List.dropWhile p l) = List.dropWhile p l := by
  induction l with
  | nil => simp
  | cons c t ih =>
    by_cases hc : p c = true
    · simpa [List.dropWhile, hc] using ih
    · have hc' : p c = false := by simpa using hc
      simp [List.dropWhile, hc']

theorem rstrip_decomp (l : List Char) :
    ∃ w, l = rstrip l ++ w ∧ ∀ c ∈ w, isPySpace c = true := by
  refine ⟨(l.reverse.takeWhile isPySpace).reverse, ?_, ?_⟩
  · have h := List.takeWhile_append_dropWhile (p := isPySpace) (l := l.reverse)
    calc l = l.reverse.reverse := (List.reverse_reverse l).symm
      _ = (List.takeWhile isPySpace l.reverse ++ List.dropWhile isPySpace l.reverse).reverse := by
          rw [h]
      _ = (List.dropWhile isPySpace l.reverse).reverse ++
            (List.takeWhile isPySpace l.reverse).reverse := by
          rw [List.reverse_append]
  · intro c hc
    exact List.mem_takeWhile_imp (by simpa using hc)

theorem rstrip_eq_nil_iff {l : List Char} :
    rstrip l = [] ↔ ∀ c ∈ l, isPySpace c = true := by
  unfold rstrip
  rw [List.reverse_eq_nil_iff, List.dropWhile_eq_nil_iff]
  constructor
  · intro h c hc
    exact h c (by simpa using hc)
  · intro h c hc
    exact h c (by simpa using hc)

theorem rstrip_idem (l : List Char) : rstrip (rstrip l) = rstrip l := by
  unfold rstrip
  rw [List.reverse_reverse, dropWhile_idem]

theorem rstrip_cons_head {c : Char} {t : List Char} (h : rstrip (c :: t) ≠ []) :
    ∃ t2, rstrip (c :: t) = c :: t2 := by
  obtain ⟨w, hw, -⟩ := rstrip_decomp (c :: t)
  cases hr : rstrip (c :: t) with
  | nil => exact absurd hr h
  | cons d t2 =>
    rw [hr] at hw
    simp only [List.cons_append] at hw
    injection hw with h1 h2
    cases h1
    exact ⟨t2, rfl⟩

theorem startsWith_iff {p l : List Char} :
    startsWith p l = true ↔ ∃ t, l = p ++ t := by
  induction p generalizing l with
  | nil => simp [startsWith]
  | cons a as ih =>
    cases l with
    | nil =>
      constructor
      · intro h; simp [startsWith] at h
      · rintro ⟨t, ht⟩; simp at ht
    | cons c cs =>
      by_cases hac : a = c
      · subst hac
        rw [show startsWith (a :: as) (a :: cs) = startsWith as cs by simp [startsWith], ih]
        constructor
        · rintro ⟨t, rfl⟩
          exact ⟨t, by simp⟩
        · rintro ⟨t, ht⟩
          simp only [List.cons_append] at ht
          injection ht with h1 h2
          exact ⟨t, h2⟩
      · constructor
        · intro h
          simp [startsWith, hac] at h
        · rintro ⟨t, ht⟩
          simp only [List.cons_append] at ht
          injection ht with h1 h2
          exact absurd h1.symm hac

theorem rstrip_append {xs ys : List Char} {c : Char} (hc : isPySpace c = false) :
    rstrip (xs ++ c :: ys) = xs ++ c :: rstrip ys := by
  unfold rstrip
  have h1 : (xs ++ c :: ys).reverse = ys.reverse ++ c :: xs.reverse := by simp
  rw [h1, dropWhile_append_cons _ _ hc]
  simp

theorem strip_of_rstrip_cons {raw : List Char} {c : Char} {t : List Char}
    (h : rstrip raw = c :: t) (hc : isPySpace c = false) :
    strip (rstrip raw) = c :: t := by
  rw [h]
  unfold strip lstrip
  rw [dropWhile_cons_neg t hc, ← h, rstrip_idem, h]

/-! ## Classifier branch lemmas -/

theorem h1_skip {raw : List Char} (h : startsWith ("# ").data (rstrip raw) = true) :
    ∃ t, rstrip raw = '#' :: ' ' :: t ∧ strip (rstrip raw) = '#' :: ' ' :: t := by
  obtain ⟨t, ht⟩ := startsWith_iff.mp h
  have ht' : rstrip raw = '#' :: ' ' :: t := by simpa using ht
  exact ⟨t, ht', strip_of_rstrip_cons ht' (by decide)⟩

theorem h2_skip {raw : List Char} (h : startsWith ("## ").data (rstrip raw) = true) :
    ∃ t, rstrip raw = '#' :: '#' :: ' ' :: t ∧
      strip (rstrip raw) = '#' :: '#' :: ' ' :: t := by
  obtain ⟨t, ht⟩ := startsWith_iff.mp h
  have ht' : rstrip raw = '#' :: '#' :: ' ' :: t := by simpa using ht
  exact ⟨t, ht', strip_of_rstrip_cons ht' (by decide)⟩

theorem h3_skip {raw : List Char} (h : startsWith ("### ").data (rstrip raw) = true) :
    ∃ t, rstrip raw = '#' :: '#' :: '#' :: ' ' :: t ∧
      strip (rstrip raw) = '#' :: '#' :: '#' :: ' ' :: t := by
  obtain ⟨t, ht⟩ := startsWith_iff.mp h
  have ht' : rstrip raw = '#' :: '#' :: '#' :: ' ' :: t := by simpa using ht
  exact ⟨t, ht', strip_of_rstrip_cons ht' (by decide)⟩

theorem flag_true_sticky (l : List Char) : (classifyLine true l).2 = true := by
  unfold classifyLine
  repeat' split
  all_goals rfl

theorem classify_hr (fl : Bool) (l : List Char) (h : strip (rstrip l) = ("---").data) :
    classifyLine fl l = ([{ kind := Kind.hr, text := [] }], true) := by
  have hne : (strip (rstrip l)).isEmpty = false := by
    rw [h]; rfl
  unfold classifyLine
  simp only [hne, Bool.false_eq_true, if_false, if_pos h]

theorem classify_flag (fl : Bool) (l : List Char) :
    (classifyLine fl l).2 = (if strip (rstrip l) = ("---").data then true else fl) := by
  by_cases hhr : strip (rstrip l) = ("---").data
  · rw [if_pos hhr, classify_hr fl l hhr]
  · rw [if_neg hhr]
    unfold classifyLine
    repeat' split
    all_goals rfl

theorem no_footer_of_false (l : List Char) :
    ∀ p ∈ (classifyLine false l).1, p.kind ≠ Kind.footer := by
  intro p hp
  unfold classifyLine at hp
  simp only [show (if (false : Bool) then Kind.footer else Kind.bullet) = Kind.bullet from rfl,
    show (if (false : Bool) then Kind.footer else Kind.text) = Kind.text from rfl] at hp
  repeat' split at hp
  all_goals simp only [List.mem_cons, List.not_mem_nil, or_false] at hp
  all_goals rcases hp with rfl | rfl <;> simp

theorem classify_footer_all (l : List Char)
    (hb : (strip (rstrip l)).isEmpty = false)
    (hhr : strip (rstrip l) ≠ ("---").data)
    (h1 : startsWith ("# ").data (rstrip l) = false)
    (h2 : startsWith ("## ").data (rstrip l) = false)
    (h3 : startsWith ("### ").data (rstrip l) = false)
    (hcb : matchCheckbox (rstrip l) = none) :
    ∀ p ∈ (classifyLine true l).1, p.kind = Kind.footer := by
  intro p hp
  unfold classifyLine at hp
  rw [hcb] at hp
  cases hbl : matchBullet (rstrip l) with
  | some lt =>
    simp only [hb, hhr, h1, h2, h3, hbl, Bool.false_eq_true, if_false,
      List.mem_cons, List.not_mem_nil, or_false, if_true] at hp
    rw [hp]
  | none =>
    simp only [hb, hhr, h1, h2, h3, hbl, Bool.false_eq_true, if_false,
      List.mem_cons, List.not_mem_nil, or_false, if_true] at hp
    rw [hp]

theorem matchCheckbox_shape {line : List Char} {lv : Nat} {txt : List Char}
    (h : matchCheckbox line = some (lv, txt)) :
    ∃ r2 r4 c r5, line.dropWhile isPySpace = '-' :: r2 ∧
      r2.dropWhile isPySpace = '[' :: ' ' :: ']' :: r4 ∧ r4 = c :: r5 ∧
      isPySpace c = true ∧ lv = (line.takeWhile isPySpace).length / 2 ∧
      txt = strip r4 := by
  unfold matchCheckbox at h
  repeat' split at h
  all_goals try (exact Option.noConfusion h)
  next =>
    simp only [Option.some.injEq, Prod.mk.injEq] at h
    exact ⟨_, _, _, _, by assumption, by assumption, rfl, by assumption,
      h.1.symm, h.2.symm⟩

theorem checkbox_match_strip {l r2 : List Char}
    (hd1 : List.dropWhile isPySpace (rstrip l) = '-' :: r2) :
    strip (rstrip l) = rstrip ('-' :: r2) := by
  unfold strip lstrip
  rw [hd1]

theorem classify_checkbox (fl : Bool) (l : List Char) (lv : Nat) (txt : List Char)
    (h : matchCheckbox (rstrip l) = some (lv, txt)) :
    classifyLine fl l =
      ([{ kind := Kind.checkbox, text := txt, level := lv,
          mentions := _mention_spans txt }], fl) := by
  obtain ⟨r2, r4, c, r5, hd1, hd2, hr4, hc, hlv, htxt⟩ := matchCheckbox_shape h
  have hstrip : strip (rstrip l) = rstrip ('-' :: r2) := checkbox_match_strip hd1
  have hne : rstrip ('-' :: r2) ≠ [] := by
    intro hnil
    have := rstrip_eq_nil_iff.mp hnil '-' (by simp)
    simp [isPySpace] at this
  obtain ⟨t2, ht2⟩ := rstrip_cons_head hne
  have hb : (strip (rstrip l)).isEmpty = false := by
    rw [hstrip, ht2]; rfl
  have hhr : strip (rstrip l) ≠ ("---").data := by
    rw [hstrip]
    intro hcontr
    obtain ⟨w, hw, hwall⟩ := rstrip_decomp ('-' :: r2)
    rw [hcontr] at hw
    rw [show ("---").data = ['-', '-', '-'] from rfl] at hw
    have hr2 : r2 = '-' :: '-' :: w := by simpa using hw
    rw [hr2, dropWhile_cons_neg _ (by decide)] at hd2
    simp at hd2
  have hs1 : startsWith ("# ").data (rstrip l) = false := by
    by_contra hcon
    obtain ⟨t, ht, -⟩ := h1_skip (by simpa using hcon)
    rw [ht, dropWhile_cons_neg _ (by decide)] at hd1
    simp at hd1
  have hs2 : startsWith ("## ").data (rstrip l) = false := by
    by_contra hcon
    obtain ⟨t, ht, -⟩ := h2_skip (by simpa using hcon)
    rw [ht, dropWhile_cons_neg _ (by decide)] at hd1
    simp at hd1
  have hs3 : startsWith ("### ").data (rstrip l) = false := by
    by_contra hcon
    obtain ⟨t, ht, -⟩ := h3_skip (by simpa using hcon)
    rw [ht, dropWhile_cons_neg _ (by decide)] at hd1
    simp at hd1
  unfold classifyLine
  rw [if_neg (by simp [hb]), if_neg hhr, if_neg (by simp [hs1]), if_neg (by simp [hs2]),
    if_neg (by simp [hs3]), h]

theorem checkbox_only_from_match (fl : Bool) (l : List Char) (p : Paragraph)
    (hp : p ∈ (classifyLine fl l).1) (hk : p.kind = Kind.checkbox) :
    matchCheckbox (rstrip l) ≠ none := by
  intro hnone
  unfold classifyLine at hp
  rw [hnone] at hp
  repeat' split at hp
  all_goals try contradiction
  all_goals simp only [List.mem_cons, List.not_mem_nil, or_false] at hp
  all_goals rcases hp with rfl | rfl
  all_goals revert hk
  all_goals cases fl <;> simp

theorem classify_len (fl : Bool) (l : List Char) :
    (classifyLine fl l).1.length = if extraP l then 2 else 1 := by
  by_cases hh : startsWith ("# ").data (rstrip l) = true
  · obtain ⟨t, ht, hs⟩ := h1_skip hh
    have hb : (strip (rstrip l)).isEmpty = false := by rw [hs]; rfl
    have hhr : strip (rstrip l) ≠ ("---").data := by
      rw [hs]
      intro hcontr
      rw [show ("---").data = ['-', '-', '-'] from rfl] at hcontr
      simp at hcontr
    unfold classifyLine extraP
    rw [if_neg (by simp [hb]), if_neg hhr, if_pos hh, hh]
    cases hrest : (strip (partitionSep (" - ").data (strip ((rstrip l).drop 2))).2).isEmpty <;>
      simp [hrest]
  · have hh' : startsWith ("# ").data (rstrip l) = false := by simpa using hh
    have hep : extraP l = false := by unfold extraP; rw [hh']; rfl
    rw [hep]
    simp only [Bool.false_eq_true, if_false]
    unfold classifyLine
    repeat' split
    all_goals simp_all

theorem flagAfter_append (fl : Bool) (a b : List (List Char)) :
    flagAfter fl (a ++ b) = flagAfter (flagAfter fl a) b := by
  induction a generalizing fl with
  | nil => rfl
  | cons l ls ih =>
    simp only [List.cons_append, flagAfter]
    exact ih _

theorem flagAfter_true (ls : List (List Char)) : flagAfter true ls = true := by
  induction ls with
  | nil => rfl
  | cons l ls ih =>
    unfold flagAfter
    rw [flag_true_sticky]
    exact ih

theorem flagAfter_take_succ (lines : List (List Char)) (j : Nat) (fl : Bool)
    (hj : j < lines.length) :
    flagAfter fl (lines.take (j + 1)) =
      (classifyLine (flagAfter fl (lines.take j)) (lines.getD j [])).2 := by
  induction lines generalizing j fl with
  | nil => simp at hj
  | cons l ls ih =>
    cases j with
    | zero => rfl
    | succ j =>
      simp only [List.take_succ_cons, List.getD_cons_succ, flagAfter]
      exact ih j _ (by simpa using Nat.lt_of_succ_lt_succ (by simpa using hj))

theorem lineRecords_getD (fl : Bool) (lines : List (List Char)) (j : Nat)
    (hj : j < lines.length) :
    (lineRecords fl lines).getD j [] =
      (classifyLine (flagAfter fl (lines.take j)) (lines.getD j [])).1 := by
  induction lines generalizing j fl with
  | nil => simp at hj
  | cons l ls ih =>
    cases j with
    | zero => rfl
    | succ j =>
      simp only [lineRecords, List.getD_cons_succ, List.take_succ_cons, flagAfter]
      exact ih _ j (by simpa using Nat.lt_of_succ_lt_succ (by simpa using hj))

/-- The flat record list of `parse_markdown` is the concatenation of the
per-line record blocks, so statements about `recordsAt` are statements
about the records the parse emits for each line. -/
theorem parseLines_eq_join (fl : Bool) (lines : List (List Char)) :
    parseLines fl lines = (lineRecords fl lines).flatten := by
  induction lines generalizing fl with
  | nil => rfl
  | cons l ls ih => simp only [parseLines, lineRecords, List.flatten_cons, ih]

theorem flag_false_before (lines : List (List Char)) (i : Nat)
    (hfirst : ∀ k, k < i → strip (rstrip (lines.getD k [])) ≠ ("---").data) :
    ∀ j, j ≤ i → j ≤ lines.length → flagAfter false (lines.take j) = false := by
  intro j
  induction j with
  | zero => intro _ _; rfl
  | succ j ih =>
    intro hj hjl
    have hj' : j < lines.length := by omega
    rw [flagAfter_take_succ lines j false hj', classify_flag,
      ih (by omega) (by omega), if_neg (hfirst j (by omega))]

theorem flag_true_from (lines : List (List Char)) (i : Nat) (hi : i < lines.length)
    (hhr : strip (rstrip (lines.getD i [])) = ("---").data) :
    ∀ j, i < j → flagAfter false (lines.take j) = true := by
  intro j
  induction j with
  | zero => omega
  | succ j ih =>
    intro hij
    by_cases hj : j < lines.length
    · rcases Nat.lt_or_ge i j with hlt | hge
      · rw [flagAfter_take_succ lines j false hj, ih hlt, flag_true_sticky]
      · have hij' : i = j := by omega
        subst hij'
        rw [flagAfter_take_succ lines i false hj, classify_hr _ _ hhr]
    · have e1 : lines.take (j + 1) = lines := List.take_of_length_le (by omega)
      have e2 : lines.take j = lines := List.take_of_length_le (by omega)
      rw [e1, ← e2]
      exact ih (by omega)

theorem classify_h1 (fl : Bool) (l : List Char)
    (h : startsWith ("# ").data (rstrip l) = true) :
    classifyLine fl l =
      ((if (strip (partitionSep (" - ").data (strip ((rstrip l).drop 2))).2).isEmpty then
          [{ kind := Kind.h1,
             text := strip (partitionSep (" - ").data (strip ((rstrip l).drop 2))).1 }]
        else
          [{ kind := Kind.h1,
             text := strip (partitionSep (" - ").data (strip ((rstrip l).drop 2))).1 },
           { kind := Kind.text,
             text := strip (partitionSep (" - ").data (strip ((rstrip l).drop 2))).2 }]),
       fl) := by
  obtain ⟨t, ht, hs⟩ := h1_skip h
  have hb : (strip (rstrip l)).isEmpty = false := by rw [hs]; rfl
  have hhr : strip (rstrip l) ≠ ("---").data := by
    rw [hs]
    intro hcontr
    rw [show ("---").data = ['-', '-', '-'] from rfl] at hcontr
    simp at hcontr
  unfold classifyLine
  rw [if_neg (by simp [hb]), if_neg hhr, if_pos h]

theorem classify_h2 (fl : Bool) (l : List Char)
    (h : startsWith ("## ").data (rstrip l) = true) :
    classifyLine fl l = ([{ kind := Kind.h2, text := strip ((rstrip l).drop 3) }], fl) := by
  obtain ⟨t, ht, hs⟩ := h2_skip h
  have hb : (strip (rstrip l)).isEmpty = false := by rw [hs]; rfl
  have hhr : strip (rstrip l) ≠ ("---").data := by
    rw [hs]
    intro hcontr
    rw [show ("---").data = ['-', '-', '-'] from rfl] at hcontr
    simp at hcontr
  have hs1 : startsWith ("# ").data (rstrip l) = false := by rw [ht]; rfl
  unfold classifyLine
  rw [if_neg (by simp [hb]), if_neg hhr, if_neg (by simp [hs1]), if_pos h]

theorem classify_h3 (fl : Bool) (l : List Char)
    (h : startsWith ("### ").data (rstrip l) = true) :
    classifyLine fl l = ([{ kind := Kind.h3, text := strip ((rstrip l).drop 4) }], fl) := by
  obtain ⟨t, ht, hs⟩ := h3_skip h
  have hb : (strip (rstrip l)).isEmpty = false := by rw [hs]; rfl
  have hhr : strip (rstrip l) ≠ ("---").data := by
    rw [hs]
    intro hcontr
    rw [show ("---").data = ['-', '-', '-'] from rfl] at hcontr
    simp at hcontr
  have hs1 : startsWith ("# ").data (rstrip l) = false := by rw [ht]; rfl
  have hs2 : startsWith ("## ").data (rstrip l) = false := by rw [ht]; rfl
  unfold classifyLine
  rw [if_neg (by simp [hb]), if_neg hhr, if_neg (by simp [hs1]), if_neg (by simp [hs2]),
    if_pos h]

theorem classify_text (fl : Bool) (l : List Char)
    (hb : (strip (rstrip l)).isEmpty = false)
    (hhr : strip (rstrip l) ≠ ("---").data)
    (hs1 : startsWith ("# ").data (rstrip l) = false)
    (hs2 : startsWith ("## ").data (rstrip l) = false)
    (hs3 : startsWith ("### ").data (rstrip l) = false)
    (hcb : matchCheckbox (rstrip l) = none)
    (hbl : matchBullet (rstrip l) = none) :
    classifyLine fl l =
      ([{ kind := (if fl then Kind.footer else Kind.text), text := strip (rstrip l),
          level := 0, mentions := _mention_spans (strip (rstrip l)) }], fl) := by
  unfold classifyLine
  rw [if_neg (by simp [hb]), if_neg hhr, if_neg (by simp [hs1]), if_neg (by simp [hs2]),
    if_neg (by simp [hs3]), hcb, hbl]

/-! ## Claim theorems -/

/-- Helper for C3: lifting the per-line record count to the whole loop. -/
theorem parseLines_length (fl : Bool) (lines : List (List Char)) :
    (parseLines fl lines).length = lines.length + lines.countP extraP := by
  induction lines generalizing fl with
  | nil => rfl
  | cons l ls ih =>
    simp only [parseLines, List.length_append, ih, List.countP_cons, classify_len,
      List.length_cons]
    by_cases h : extraP l = true
    · simp only [h, if_true]
      omega
    · have h' : extraP l = false := by simpa using h
      simp only [h', Bool.false_eq_true, if_false]
      omega

/-- C1: on the six-line end-to-end input, parse_markdown returns exactly the
seven records h1 Team Sync, text Weekly, h2 Action Items, checkbox at-alice
(level 0, mention span 0..6), checkbox follow up (level 1), hr, footer Next
meeting Friday (level 0), in this order. -/
theorem c1_end_to_end :
    parse_markdown (("# Team Sync - Weekly\n## Action Items\n- [ ] @alice sends report\n  - [ ] follow up\n---\n- Next meeting Friday").data) =
      [{ kind := Kind.h1, text := ("Team Sync").data },
       { kind := Kind.text, text := ("Weekly").data },
       { kind := Kind.h2, text := ("Action Items").data },
       { kind := Kind.checkbox, text := ("@alice sends report").data, level := 0,
         mentions := [(0, 6)] },
       { kind := Kind.checkbox, text := ("follow up").data, level := 1 },
       { kind := Kind.hr, text := [] },
       { kind := Kind.footer, text := ("Next meeting Friday").data }] := by
  rfl

/-- C3: the number of records equals the number of input lines (after newline
normalization and splitting on LF) plus one for every h1 line whose remainder
after the space-dash-space split is non-empty once trimmed (extraP). -/
theorem c3_line_count_invariant (md : List Char) :
    (parse_markdown md).length =
      (splitLines (normalizeNewlines md)).length +
        (splitLines (normalizeNewlines md)).countP extraP := by
  unfold parse_markdown
  exact parseLines_length false _

/-- C5: a line matching the checkbox pattern is classified checkbox with the
matched level, text, and mention spans, for any footer flag: checkbox
classification is not subject to the footer-mode override. -/
theorem c5_checkbox_ignores_footer_mode (fl : Bool) (l : List Char) (lv : Nat)
    (txt : List Char) (h : matchCheckbox (rstrip l) = some (lv, txt)) :
    (classifyLine fl l).1 =
      [{ kind := Kind.checkbox, text := txt, level := lv,
         mentions := _mention_spans txt }] := by
  rw [classify_checkbox fl l lv txt h]

/-- Witness for C5 at a concrete checkbox line with the footer flag set. -/
theorem c5_checkbox_ignores_footer_mode_witness :
    matchCheckbox (rstrip (("- [ ] ship it").data)) = some (0, ("ship it").data) ∧
    (classifyLine true (("- [ ] ship it").data)).1 =
      [{ kind := Kind.checkbox, text := ("ship it").data, level := 0,
         mentions := [] }] :=
  ⟨by decide,
    c5_checkbox_ignores_footer_mode true (("- [ ] ship it").data) 0 (("ship it").data)
      (by decide)⟩

/-- C7: parse_markdown is total by construction; every record's kind is one of
the eight defined kinds, and a line matching no richer pattern falls through
to the plain-text branch (footer-tagged when the flag is set). -/
theorem c7_totality (md : List Char) :
    (∀ p ∈ parse_markdown md,
      p.kind = Kind.text ∨ p.kind = Kind.h1 ∨ p.kind = Kind.h2 ∨ p.kind = Kind.h3 ∨
      p.kind = Kind.bullet ∨ p.kind = Kind.checkbox ∨ p.kind = Kind.footer ∨
      p.kind = Kind.hr) ∧
    (∀ (fl : Bool) (l : List Char),
      (strip (rstrip l)).isEmpty = false → strip (rstrip l) ≠ ("---").data →
      startsWith ("# ").data (rstrip l) = false →
      startsWith ("## ").data (rstrip l) = false →
      startsWith ("### ").data (rstrip l) = false →
      matchCheckbox (rstrip l) = none → matchBullet (rstrip l) = none →
      classifyLine fl l =
        ([{ kind := (if fl then Kind.footer else Kind.text), text := strip (rstrip l),
            level := 0, mentions := _mention_spans (strip (rstrip l)) }], fl)) := by
  constructor
  · intro p hp
    cases h : p.kind <;> simp
  · intro fl l hb hhr hs1 hs2 hs3 hcb hbl
    exact classify_text fl l hb hhr hs1 hs2 hs3 hcb hbl

/-- Witness for C7 at a concrete pattern-free line. -/
theorem c7_totality_witness :
    classifyLine false (("hello @world").data) =
      ([{ kind := Kind.text, text := ("hello @world").data, level := 0,
          mentions := [(6, 12)] }], false) :=
  (c7_totality []).2 false (("hello @world").data) (by decide) (by decide) (by decide)
    (by decide) (by decide) (by decide) (by decide)

/-- C8: each line yields exactly one record, except an h1 line with a
non-empty subtitle remainder (extraP), which yields exactly two: the h1
title record followed by a text subtitle record. -/
theorem c8_one_to_many (fl : Bool) (l : List Char) :
    (classifyLine fl l).1.length = (if extraP l then 2 else 1) ∧
    (extraP l = true →
      (classifyLine fl l).1 =
        [{ kind := Kind.h1,
           text := strip (partitionSep (" - ").data (strip ((rstrip l).drop 2))).1 },
         { kind := Kind.text,
           text := strip (partitionSep (" - ").data (strip ((rstrip l).drop 2))).2 }]) := by
  refine ⟨classify_len fl l, ?_⟩
  intro hex
  unfold extraP at hex
  rw [Bool.and_eq_true] at hex
  have hh : startsWith ("# ").data (rstrip l) = true := hex.1
  have hrest :
      (strip (partitionSep (" - ").data (strip ((rstrip l).drop 2))).2).isEmpty = false := by
    simpa using hex.2
  rw [classify_h1 fl l hh, if_neg (by simp [hrest])]

/-- Witness for C8 at the concrete heading-with-subtitle line. -/
theorem c8_one_to_many_witness :
    (classifyLine false (("# Sync - Weekly").data)).1 =
      [{ kind := Kind.h1, text := ("Sync").data },
       { kind := Kind.text, text := ("Weekly").data }] :=
  (c8_one_to_many false (("# Sync - Weekly").data)).2 (by decide)

/-- C9: heading lines are still classified h1/h2/h3 when the footer flag is
already set: an h1 line emits exactly the h1 title record, followed by a
text (never footer) subtitle record exactly when the subtitle remainder is
non-empty; h2/h3 lines emit exactly their heading record; and in every case
the classifier returns the flag still true, so footer mode persists for the
lines that follow. -/
theorem c9_headings_in_footer_mode (l : List Char) :
    (startsWith ("# ").data (rstrip l) = true →
      classifyLine true l =
        ((if (strip (partitionSep (" - ").data (strip ((rstrip l).drop 2))).2).isEmpty then
            [{ kind := Kind.h1,
               text := strip (partitionSep (" - ").data (strip ((rstrip l).drop 2))).1 }]
          else
            [{ kind := Kind.h1,
               text := strip (partitionSep (" - ").data (strip ((rstrip l).drop 2))).1 },
             { kind := Kind.text,
               text := strip (partitionSep (" - ").data (strip ((rstrip l).drop 2))).2 }]),
         true)) ∧
    (startsWith ("## ").data (rstrip l) = true →
      classifyLine true l =
        ([{ kind := Kind.h2, text := strip ((rstrip l).drop 3) }], true)) ∧
    (startsWith ("### ").data (rstrip l) = true →
      classifyLine true l =
        ([{ kind := Kind.h3, text := strip ((rstrip l).drop 4) }], true)) :=
  ⟨fun h => classify_h1 true l h, fun h => classify_h2 true l h,
    fun h => classify_h3 true l h⟩

/-- Witness for C9 at a concrete h1-with-subtitle line in footer mode: the
title is emitted as h1, the subtitle as text, and the flag stays true. -/
theorem c9_headings_in_footer_mode_witness :
    classifyLine true (("# Sync - Weekly").data) =
      ([{ kind := Kind.h1, text := ("Sync").data },
        { kind := Kind.text, text := ("Weekly").data }], true) := by
  rw [(c9_headings_in_footer_mode (("# Sync - Weekly").data)).1 (by decide)]
  rfl

/-- C10: parsing the empty string yields exactly one blank text record. -/
theorem c10_empty_input :
    parse_markdown (("").data) = [{ kind := Kind.text, text := [] }] := by
  rfl

/-- C2 as stated: for any input with an hr line at position i, every later
non-blank, non-heading, non-checkbox line is emitted footer; no line before
position i is emitted footer; the flag is never cleared; every additional hr
line still emits an hr record.  (False: an hr line after i is itself
non-blank, non-heading and non-checkbox yet is emitted hr not footer, and
with several hr lines, lines between them are footer yet lie before a later
hr position i.) -/
def C2Claim : Prop :=
  ∀ (lines : List (List Char)) (i : Nat), i < lines.length →
    strip (rstrip (lines.getD i [])) = ("---").data →
    (∀ j, j < lines.length → i < j →
      (strip (rstrip (lines.getD j []))).isEmpty = false →
      startsWith ("# ").data (rstrip (lines.getD j [])) = false →
      startsWith ("## ").data (rstrip (lines.getD j [])) = false →
      startsWith ("### ").data (rstrip (lines.getD j [])) = false →
      matchCheckbox (rstrip (lines.getD j [])) = none →
      ∀ p ∈ recordsAt lines j, p.kind = Kind.footer) ∧
    (∀ j, j < i → ∀ p ∈ recordsAt lines j, p.kind ≠ Kind.footer) ∧
    (∀ j, i < j → flagAfter false (lines.take j) = true) ∧
    (∀ j, j < lines.length → strip (rstrip (lines.getD j [])) = ("---").data →
      recordsAt lines j = [{ kind := Kind.hr, text := [] }])

/-- C2 counterexample: on the three lines hr, x, hr, instantiating the claim
at the second hr position i = 2 requires line 1 (which the parse emits as
footer) to not be footer. -/
theorem c2_counterexample : ¬ C2Claim := by
  intro h
  have h2 := (h [("---").data, ("x").data, ("---").data] 2 (by decide) (by decide)).2.1
  have h4 := h2 1 (by decide)
    { kind := Kind.footer, text := ("x").data, level := 0, mentions := [] } (by decide)
  exact h4 rfl

/-- C2 amended: let i be the position of the FIRST line trimming to three
dashes.  Every later line that is not blank, not a heading, not a checkbox
line, and does not itself trim to three dashes is emitted footer; no line
before i is emitted footer; the flag, once set, is never cleared; every line
trimming to three dashes emits exactly one hr record. -/
theorem c2_amended (lines : List (List Char)) (i : Nat) (hi : i < lines.length)
    (hhr : strip (rstrip (lines.getD i [])) = ("---").data)
    (hfirst : ∀ k, k < i → strip (rstrip (lines.getD k [])) ≠ ("---").data) :
    (∀ j, j < lines.length → i < j →
      (strip (rstrip (lines.getD j []))).isEmpty = false →
      startsWith ("# ").data (rstrip (lines.getD j [])) = false →
      startsWith ("## ").data (rstrip (lines.getD j [])) = false →
      startsWith ("### ").data (rstrip (lines.getD j [])) = false →
      matchCheckbox (rstrip (lines.getD j [])) = none →
      strip (rstrip (lines.getD j [])) ≠ ("---").data →
      ∀ p ∈ recordsAt lines j, p.kind = Kind.footer) ∧
    (∀ j, j < i → ∀ p ∈ recordsAt lines j, p.kind ≠ Kind.footer) ∧
    (∀ j, i < j → flagAfter false (lines.take j) = true) ∧
    (∀ j, j < lines.length → strip (rstrip (lines.getD j [])) = ("---").data →
      recordsAt lines j = [{ kind := Kind.hr, text := [] }]) := by
  refine ⟨?_, ?_, flag_true_from lines i hi hhr, ?_⟩
  · intro j hj hij hb hsA hsB hsC hcb hnhr p hp
    unfold recordsAt at hp
    rw [flag_true_from lines i hi hhr j hij] at hp
    exact classify_footer_all _ hb hnhr hsA hsB hsC hcb p hp
  · intro j hji p hp
    unfold recordsAt at hp
    rw [flag_false_before lines i hfirst j (by omega) (by omega)] at hp
    exact no_footer_of_false _ p hp
  · intro j hj hhrj
    unfold recordsAt
    rw [classify_hr _ _ hhrj]

/-- Witness for C2 amended on the concrete lines a, hr, b with first hr at
position 1: the hr line emits exactly one hr record. -/
theorem c2_amended_witness :
    recordsAt [("a").data, ("---").data, ("b").data] 1 =
      [{ kind := Kind.hr, text := [] }] :=
  (c2_amended [("a").data, ("---").data, ("b").data] 1 (by decide) (by decide)
    (by intro k hk; have hk0 : k = 0 := by omega
        subst hk0; decide)).2.2.2 1 (by decide) (by decide)

theorem takeWhile_append_all {p : Char → Bool} {ws : List Char}
    (hws : ∀ c ∈ ws, p c = true) {d : Char} (hd : p d = false) (t : List Char) :
    List.takeWhile p (ws ++ d :: t) = ws := by
  induction ws with
  | nil => simp [List.takeWhile_cons, hd]
  | cons c cs ih =>
    have hc : p c = true := hws c (by simp)
    simp [List.takeWhile_cons, hc, ih (fun x hx => hws x (by simp [hx]))]

/-- The checkbox regex evaluated on a line of shape whitespace, dash,
bracket marker, remainder: it matches exactly when the remainder starts
with a whitespace character, with level half the leading-whitespace width
and text the stripped remainder. -/
theorem matchCheckbox_bracket_line (ws r4 : List Char)
    (hws : ∀ c ∈ ws, isPySpace c = true) :
    matchCheckbox (ws ++ '-' :: '[' :: ' ' :: ']' :: r4) =
      (match r4 with
       | c :: _ =>
         if isPySpace c then some (ws.length / 2, strip r4) else none
       | [] => none) := by
  cases r4 with
  | nil =>
    simp only [matchCheckbox,
      dropWhile_append_all hws (show isPySpace '-' = false from by decide) _,
      dropWhile_cons_neg _ (show isPySpace '[' = false from by decide)]
  | cons c r5 =>
    simp only [matchCheckbox,
      dropWhile_append_all hws (show isPySpace '-' = false from by decide) _,
      dropWhile_cons_neg _ (show isPySpace '[' = false from by decide),
      takeWhile_append_all hws (show isPySpace '-' = false from by decide) _]

theorem exists_nonspace_of_rstrip_ne_nil {x : List Char} (h : rstrip x ≠ []) :
    ∃ c ∈ x, isPySpace c = false := by
  by_contra hall
  push_neg at hall
  apply h
  apply rstrip_eq_nil_iff.mpr
  intro c hc
  cases hx : isPySpace c with
  | false => exact (hall c hc hx).elim
  | true => rfl

/-- C4 as stated: space-separated checkbox lines classify as checkbox,
dash-space lines as bullet, the spaceless variant falls to plain text, and
in general a line whose dash is immediately followed by the bracket marker
(no intervening space) is never classified checkbox.  (The last part is
false: the pattern makes the space after the dash optional, so a line like
dash-brackets-space-content is a checkbox; only missing whitespace after
the closing bracket blocks the match.) -/
def C4Claim : Prop :=
  (classifyLine false (("- [ ] buy milk").data)).1 =
      [{ kind := Kind.checkbox, text := ("buy milk").data }] ∧
  (classifyLine false (("- buy milk").data)).1 =
      [{ kind := Kind.bullet, text := ("buy milk").data }] ∧
  (classifyLine false (("-[ ]buy milk").data)).1 =
      [{ kind := Kind.text, text := ("-[ ]buy milk").data }] ∧
  (∀ (ws rest : List Char) (fl : Bool), ws.all isPySpace = true →
    ∀ p ∈ (classifyLine fl (ws ++ ("-[ ]").data ++ rest)).1, p.kind ≠ Kind.checkbox)

/-- C4 counterexample: the line dash-brackets-space-content (no space after
the dash) IS classified checkbox, refuting the general clause. -/
theorem c4_counterexample : ¬ C4Claim := by
  intro h
  have h4 := h.2.2.2 [] ((" buy milk").data) false (by decide)
    { kind := Kind.checkbox, text := ("buy milk").data, level := 0, mentions := [] }
    (by decide)
  exact h4 rfl

/-- C4 amended: the three concrete classifications hold, and a line of shape
optional whitespace, then a dash immediately followed by the bracket marker,
then a remainder, is classified checkbox if and only if the remainder begins
with a whitespace character and contains a non-whitespace character: the
space after the dash is optional in the pattern, and for the spaceless
example it is the missing whitespace after the closing bracket that blocks
the match. -/
theorem c4_amended (ws rest : List Char) (hws : ws.all isPySpace = true) :
    (classifyLine false (("- [ ] buy milk").data)).1 =
        [{ kind := Kind.checkbox, text := ("buy milk").data }] ∧
    (classifyLine false (("- buy milk").data)).1 =
        [{ kind := Kind.bullet, text := ("buy milk").data }] ∧
    (classifyLine false (("-[ ]buy milk").data)).1 =
        [{ kind := Kind.text, text := ("-[ ]buy milk").data }] ∧
    (∀ fl : Bool,
      (∃ p ∈ (classifyLine fl (ws ++ ("-[ ]").data ++ rest)).1,
          p.kind = Kind.checkbox) ↔
        ((∃ d cs, rest = d :: cs ∧ isPySpace d = true) ∧
          ∃ c ∈ rest, isPySpace c = false)) := by
  have hws' : ∀ c ∈ ws, isPySpace c = true := fun c hc => List.all_eq_true.mp hws c hc
  have hL : ws ++ ("-[ ]").data ++ rest = (ws ++ ['-', '[', ' ']) ++ ']' :: rest := by
    simp [show ("-[ ]").data = ['-', '[', ' ', ']'] from rfl]
  have hr1 : rstrip (ws ++ ("-[ ]").data ++ rest) =
      ws ++ '-' :: '[' :: ' ' :: ']' :: rstrip rest := by
    rw [hL, rstrip_append (show isPySpace ']' = false from by decide)]
    simp
  have hmc : matchCheckbox (rstrip (ws ++ ("-[ ]").data ++ rest)) =
      (match rstrip rest with
       | c :: _ =>
         if isPySpace c then some (ws.length / 2, strip (rstrip rest)) else none
       | [] => none) := by
    rw [hr1]
    exact matchCheckbox_bracket_line ws (rstrip rest) hws'
  refine ⟨by decide, by decide, by decide, ?_⟩
  intro fl
  constructor
  · rintro ⟨p, hp, hk⟩
    have hne := checkbox_only_from_match fl _ p hp hk
    rw [hmc] at hne
    cases hrr : rstrip rest with
    | nil =>
      rw [hrr] at hne
      simp at hne
    | cons c r5 =>
      rw [hrr] at hne
      by_cases hc : isPySpace c = true
      · have hnenil : rstrip rest ≠ [] := by rw [hrr]; simp
        have hex := exists_nonspace_of_rstrip_ne_nil hnenil
        obtain ⟨w, hw, -⟩ := rstrip_decomp rest
        rw [hrr] at hw
        exact ⟨⟨c, r5 ++ w, by simpa using hw, hc⟩, hex⟩
      · have hc' : isPySpace c = false := by simpa using hc
        simp [hc'] at hne
  · rintro ⟨⟨d, cs, hrest, hd⟩, hex⟩
    have hnenil : rstrip rest ≠ [] := by
      intro hnil
      obtain ⟨c0, hc0mem, hc0⟩ := hex
      have := rstrip_eq_nil_iff.mp hnil c0 hc0mem
      simp [hc0] at this
    subst hrest
    obtain ⟨t2, ht2⟩ := rstrip_cons_head hnenil
    have hsome : matchCheckbox (rstrip (ws ++ ("-[ ]").data ++ (d :: cs))) =
        some (ws.length / 2, strip (d :: t2)) := by
      rw [hmc, ht2]
      simp [hd]
    have hcl := classify_checkbox fl (ws ++ ("-[ ]").data ++ (d :: cs))
      (ws.length / 2) (strip (d :: t2)) hsome
    refine ⟨⟨Kind.checkbox, strip (d :: t2), ws.length / 2,
      _mention_spans (strip (d :: t2))⟩, ?_, rfl⟩
    rw [hcl]
    simp

/-- Witness for C4 amended: with two leading spaces and a remainder that
begins with a space and has content, the backward direction produces a
checkbox classification. -/
theorem c4_amended_witness :
    ∃ p ∈ (classifyLine false ([' ', ' '] ++ ("-[ ]").data ++ ((" ok").data))).1,
      p.kind = Kind.checkbox :=
  ((c4_amended [' ', ' '] ((" ok").data) (by decide)).2.2.2 false).mpr
    ⟨⟨' ', ("ok").data, by decide, by decide⟩, ⟨'o', by decide, by decide⟩⟩

